import Mathlib

/-!
Shallow embedding of the particle-wave animation core (src/index.ts).

The source is a TypeScript program: a Particle Factory (`createParticle`)
sampling immutable motion parameters, and a Kinematic Evaluator
(`moveParticle`) mapping (particle, time) to a 3D position and writing it
into the particle's visual handle.  Numbers are modelled as real numbers;
JavaScript's `%` operator on numbers is the truncated remainder
`a - d * trunc(a / d)` (result carries the sign of the dividend), which we
embed as `jsMod` below.  `Math.sin` is modelled by `Real.sin`, and the
random sources (`Math.random`, the `random-normal` library) are modelled by
passing the sampled outcomes explicitly.
-/

namespace ParticleWave

/-- Configuration constant SPEED from src/index.ts line 16: milliseconds for
one nominal animation cycle. -/
def SPEED : ℝ := 20000

/-- Truncation toward zero, as used by JavaScript's `%` on numbers. -/
noncomputable def jstrunc (x : ℝ) : ℤ := if 0 ≤ x then ⌊x⌋ else ⌈x⌉

/-- JavaScript remainder `a % d` on numbers: `a - d * trunc (a / d)`. -/
noncomputable def jsMod (a d : ℝ) : ℝ := a - d * jstrunc (a / d)

/-- The visual handle (`geometry` field): the externally owned Three.js mesh.
The core only touches its position; the scale is set once at creation. -/
structure Visual where
  pos : ℝ × ℝ × ℝ
  scale : ℝ

/-- The Particle record of src/index.ts lines 22-30. -/
structure Particle where
  duration : ℝ
  amplitude : ℝ
  offsetY : ℝ
  arc : ℝ
  startTime : ℝ
  z : ℝ
  geometry : Visual

/-- src/index.ts lines 35-37: `rand(low, high) = Math.random() * (high - low) + low`,
with `u` the outcome of `Math.random()` (a sample in `[0, 1)`). -/
def rand (low high u : ℝ) : ℝ := u * (high - low) + low

/-- One call's worth of outcomes of the random sources consumed by
`createParticle`: the `randomNormal` samples for scale, duration, amplitude,
offsetY, arc and z, and the `Math.random()` sample `u` used by `rand(0, SPEED)`. -/
structure Samples where
  scaleS : ℝ
  durationS : ℝ
  amplitudeS : ℝ
  offsetYS : ℝ
  arcS : ℝ
  uS : ℝ
  zS : ℝ

/-- src/index.ts lines 40-63: `createParticle`.  `now` is the value of
`performance.now()` at creation time; `s` holds the outcomes of the random
samples drawn in the body.  The mesh is created at the Three.js default
position (0,0,0) with the sampled scale. -/
def createParticle (now : ℝ) (s : Samples) : Particle :=
  { duration := s.durationS
    amplitude := s.amplitudeS
    offsetY := s.offsetYS
    arc := s.arcS
    startTime := now - rand 0 SPEED s.uS
    z := s.zS
    geometry := { pos := (0, 0, 0), scale := s.scaleS } }

/-- src/index.ts line 67 (inner remainder): `(time - particle.startTime) % particle.duration`. -/
noncomputable def elapsed (p : Particle) (time : ℝ) : ℝ :=
  jsMod (time - p.startTime) p.duration

/-- src/index.ts line 67: `progress = 1 - elapsed / particle.duration`. -/
noncomputable def progress (p : Particle) (time : ℝ) : ℝ :=
  1 - elapsed p time / p.duration

/-- src/index.ts line 68 as a function of the progress value:
`x = progress * 300 - 150`. -/
def xOfProgress (pr : ℝ) : ℝ := pr * 300 - 150

/-- src/index.ts line 68: the x coordinate computed by `moveParticle`. -/
noncomputable def xCoord (p : Particle) (time : ℝ) : ℝ :=
  xOfProgress (progress p time)

/-- src/index.ts line 72: `maxDistance = 90`. -/
def maxDistance : ℝ := 90

/-- src/index.ts lines 71-73 as a function of the x value:
`distanceFromCenter = |x|`, `shrinkFactor = 1 - (distanceFromCenter / maxDistance)^2`. -/
noncomputable def shrinkOf (x : ℝ) : ℝ := 1 - (|x| / maxDistance) ^ 2

/-- src/index.ts line 73: the shrinkFactor computed by `moveParticle`. -/
noncomputable def shrinkFactor (p : Particle) (time : ℝ) : ℝ :=
  shrinkOf (xCoord p time)

/-- src/index.ts line 76: `amplitude = particle.amplitude * shrinkFactor`. -/
noncomputable def amplitudeAt (p : Particle) (time : ℝ) : ℝ :=
  p.amplitude * shrinkFactor p time

/-- src/index.ts line 77: `offsetY = particle.offsetY * shrinkFactor`. -/
noncomputable def offsetYAt (p : Particle) (time : ℝ) : ℝ :=
  p.offsetY * shrinkFactor p time

/-- src/index.ts line 79: `y = -sin(progress * arc) * amplitude + offsetY`. -/
noncomputable def yCoord (p : Particle) (time : ℝ) : ℝ :=
  -Real.sin (progress p time * p.arc) * amplitudeAt p time + offsetYAt p time

/-- The 3D position `moveParticle` computes and writes (src/index.ts line 80):
`(x, y, particle.z)`. -/
noncomputable def movePosition (p : Particle) (time : ℝ) : ℝ × ℝ × ℝ :=
  (xCoord p time, yCoord p time, p.z)

/-- src/index.ts lines 66-81: `moveParticle` as a state transformer on the
particle.  The only write is `particle.geometry.position.set(x, y, z)`. -/
noncomputable def moveParticle (p : Particle) (time : ℝ) : Particle :=
  { p with geometry := { p.geometry with pos := movePosition p time } }

/-- Concrete particle whose `startTime` (5) lies ahead of evaluation time 0,
with `duration` 10: exercises the negative-operand remainder. -/
def pFuture : Particle := ⟨10, 25, 0, 7, 5, 0, ⟨(0, 0, 0), 1⟩⟩

/-- Concrete particle for the periodicity counterexample: same shape as
`pFuture` (duration 10, startTime 5). -/
def pWrap : Particle := ⟨10, 25, 0, 7, 5, 0, ⟨(0, 0, 0), 1⟩⟩

/-- Concrete particle with `startTime` 0 and `duration` 10, evaluated at
times with a non-negative operand. -/
def pPast : Particle := ⟨10, 25, 0, 7, 0, 0, ⟨(0, 0, 0), 1⟩⟩

/-- Concrete particle sharing `duration`/`startTime` with `pB` but nothing else. -/
def pA : Particle := ⟨1000, 25, 0, 7, 3, 2, ⟨(0, 0, 0), 1⟩⟩

/-- Concrete particle sharing `duration`/`startTime` with `pA` but nothing else. -/
def pB : Particle := ⟨1000, 99, 4, 5, 3, 8, ⟨(0, 0, 0), 2⟩⟩

/-- Random outcomes in which the `randomNormal` sample for `duration` came
out negative (-1): a possible, if astronomically unlikely, outcome of an
unclamped normal sample. -/
def sNeg : Samples := ⟨1, -1, 25, 0, 7, 0, 0⟩

/-- Random outcomes with a positive `duration` sample and `Math.random()`
outcome 0. -/
def sPos : Samples := ⟨1, 20000, 25, 0, 7, 0, 0⟩

/-! ## Helper lemmas about the JavaScript remainder -/

/-- The JavaScript remainder is invariant under adding the (positive) divisor
to a non-negative dividend. -/
lemma jsMod_add_right (a d : ℝ) (ha : 0 ≤ a) (hd : 0 < d) :
    jsMod (a + d) d = jsMod a d := by
  have hda : 0 ≤ a / d := div_nonneg ha hd.le
  have hda' : 0 ≤ (a + d) / d := div_nonneg (by linarith) hd.le
  have hdiv : (a + d) / d = a / d + 1 := by
    field_simp
  unfold jsMod jstrunc
  rw [if_pos hda', if_pos hda, hdiv]
  rw [show (a / d + 1 : ℝ) = a / d + (1 : ℤ) by push_cast; ring]
  rw [Int.floor_add_int]
  push_cast
  ring

/-- The JavaScript remainder of a non-negative dividend is non-negative
(for any divisor: the result carries the sign of the dividend). -/
lemma jsMod_nonneg (a d : ℝ) (ha : 0 ≤ a) : 0 ≤ jsMod a d := by
  unfold jsMod jstrunc
  rcases lt_trichotomy d 0 with hd | hd | hd
  · have hda : a / d ≤ 0 := div_nonpos_of_nonneg_of_nonpos ha hd.le
    have heq : d * (a / d) = a := by
      rw [mul_div_assoc']
      exact mul_div_cancel_left₀ a (ne_of_lt hd)
    split_ifs with h
    · have h0 : a / d = 0 := le_antisymm hda h
      rw [h0]
      simp [ha]
    · have hc : (a / d : ℝ) ≤ (⌈a / d⌉ : ℝ) := Int.le_ceil _
      have : d * (⌈a / d⌉ : ℝ) ≤ d * (a / d) :=
        mul_le_mul_of_nonpos_left hc hd.le
      linarith
  · subst hd; simp [ha]
  · have hda : 0 ≤ a / d := div_nonneg ha hd.le
    rw [if_pos hda]
    have hf : ((⌊a / d⌋ : ℝ)) ≤ a / d := Int.floor_le _
    have : d * (⌊a / d⌋ : ℝ) ≤ d * (a / d) :=
      mul_le_mul_of_nonneg_left hf hd.le
    have heq : d * (a / d) = a := by
      rw [mul_div_assoc']
      exact mul_div_cancel_left₀ a (ne_of_gt hd)
    linarith

/-! ## Claims -/

/-- C1: the spec requires `elapsed` to land in `[0, duration)` even when
`time - startTime < 0`, but the code uses the JavaScript truncated remainder,
so for the particle `pFuture` (duration 10, startTime 5) at time 0 the code
computes `elapsed = -5`, a negative value. -/
theorem elapsed_negative_for_future_startTime :
    elapsed pFuture 0 = -5 ∧ elapsed pFuture 0 < 0 := by
  have he : elapsed pFuture 0 = -5 := by
    norm_num [elapsed, pFuture, jsMod, jstrunc]
  exact ⟨he, by rw [he]; norm_num⟩

/-- C2 counterexample: periodicity fails for a time with a negative operand.
For `pWrap` (duration 10, startTime 5), the position at time `0 + duration`
differs from the position at time 0: the x coordinates are 0 and 300. -/
theorem movePosition_not_periodic_counterexample :
    (movePosition pWrap 0).1 = 300 ∧
    (movePosition pWrap (0 + pWrap.duration)).1 = 0 ∧
    movePosition pWrap (0 + pWrap.duration) ≠ movePosition pWrap 0 := by
  have hdur : pWrap.duration = 10 := rfl
  have hx0 : xCoord pWrap 0 = 300 := by
    have he : elapsed pWrap 0 = -5 := by
      norm_num [elapsed, pWrap, jsMod, jstrunc]
    simp only [xCoord, xOfProgress, progress]
    rw [he]
    norm_num [pWrap]
  have hx1 : xCoord pWrap (0 + 10) = 0 := by
    have he : elapsed pWrap (0 + 10) = 5 := by
      norm_num [elapsed, pWrap, jsMod, jstrunc]
    simp only [xCoord, xOfProgress, progress]
    rw [he]
    norm_num [pWrap]
  refine ⟨hx0, by rw [hdur]; exact hx1, ?_⟩
  rw [hdur]
  intro h
  have h1 := congrArg (fun q => q.1) h
  simp only [movePosition, hx0, hx1] at h1
  norm_num at h1

/-- C2 amended: `movePosition` is periodic with period `duration` at every
time whose operand `t - startTime` is non-negative (which holds for every
real tick, since `createParticle` puts `startTime` in the past). -/
theorem movePosition_periodic_of_nonneg_elapsed (p : Particle) (t : ℝ)
    (hd : 0 < p.duration) (h : 0 ≤ t - p.startTime) :
    movePosition p (t + p.duration) = movePosition p t := by
  have he : elapsed p (t + p.duration) = elapsed p t := by
    unfold elapsed
    rw [show t + p.duration - p.startTime = (t - p.startTime) + p.duration by ring]
    exact jsMod_add_right _ _ h hd
  simp only [movePosition, yCoord, amplitudeAt, offsetYAt, shrinkFactor, xCoord,
    progress, he]

/-- C2 witness: the amended periodicity theorem applied to the concrete
particle `pPast` at time 3. -/
theorem movePosition_periodic_witness :
    0 < pPast.duration ∧ 0 ≤ (3 : ℝ) - pPast.startTime ∧
    movePosition pPast (3 + pPast.duration) = movePosition pPast 3 :=
  ⟨by norm_num [pPast], by norm_num [pPast],
    movePosition_periodic_of_nonneg_elapsed pPast 3 (by norm_num [pPast])
      (by norm_num [pPast])⟩

/-- C3 counterexample: the sweep endpoints are the other way around:
`x` at progress 0 is -150, not 150, so the claimed endpoint pair is false. -/
theorem xOfProgress_endpoints_counterexample :
    ¬(xOfProgress 0 = 150 ∧ xOfProgress 1 = -150) := by
  intro h
  have h1 := h.1
  norm_num [xOfProgress] at h1

/-- C3 amended: at progress = 0 the computed x coordinate equals -150, and
at progress = 1 it equals 150 (the cycle starts at x = 150 and travels
right to left toward x = -150). -/
theorem xOfProgress_endpoints :
    xOfProgress 0 = -150 ∧ xOfProgress 1 = 150 := by
  constructor <;> norm_num [xOfProgress]

/-- C4: the x coordinate computed by `moveParticle` depends only on the
time and the particle's `duration` and `startTime`: two particles agreeing
on those fields get the same x at every time, whatever their `amplitude`,
`offsetY`, `arc` and `z`. -/
theorem xCoord_independent_of_other_fields (p q : Particle) (t : ℝ)
    (hd : p.duration = q.duration) (hs : p.startTime = q.startTime) :
    xCoord p t = xCoord q t := by
  simp only [xCoord, xOfProgress, progress, elapsed, hd, hs]

/-- C4 witness: the independence theorem applied to `pA` and `pB`, which
share `duration`/`startTime` but differ in every other field. -/
theorem xCoord_independent_witness :
    pA.duration = pB.duration ∧ pA.startTime = pB.startTime ∧
    xCoord pA 7 = xCoord pB 7 :=
  ⟨rfl, rfl, xCoord_independent_of_other_fields pA pB 7 rfl rfl⟩

/-- C5: the shrink factor computed by `moveParticle` is `shrinkOf` of the
computed x; `shrinkOf x = 1` exactly when `x = 0`; and it strictly decreases
as `|x|` grows toward 90. -/
theorem shrinkFactor_center_and_strict_decrease :
    (∀ (p : Particle) (t : ℝ), shrinkFactor p t = shrinkOf (xCoord p t)) ∧
    (∀ x : ℝ, shrinkOf x = 1 ↔ x = 0) ∧
    (∀ x1 x2 : ℝ, |x1| < |x2| → |x2| ≤ 90 → shrinkOf x2 < shrinkOf x1) := by
  refine ⟨fun p t => rfl, fun x => ?_, fun x1 x2 h h90 => ?_⟩
  · unfold shrinkOf maxDistance
    constructor
    · intro h
      have h2 : (|x| / 90) ^ 2 = 0 := by linarith
      have h3 : |x| / 90 = 0 := sq_eq_zero_iff.mp h2
      have h4 : |x| = 0 := by
        rcases div_eq_zero_iff.mp h3 with h5 | h5
        · exact h5
        · norm_num at h5
      exact abs_eq_zero.mp h4
    · intro h; subst h; simp
  · unfold shrinkOf maxDistance
    have h0 : 0 ≤ |x1| := abs_nonneg x1
    nlinarith [abs_nonneg x2]

/-- C5 witness: the strict-decrease part applied to the concrete pair
30, 45, whose shrink factors are 8/9 and 3/4. -/
theorem shrinkFactor_decrease_witness :
    |(30 : ℝ)| < |(45 : ℝ)| ∧ |(45 : ℝ)| ≤ 90 ∧ shrinkOf 45 < shrinkOf 30 :=
  ⟨by norm_num, by norm_num,
    shrinkFactor_center_and_strict_decrease.2.2 30 45 (by norm_num) (by norm_num)⟩

/-- C6: for a particle with duration 1000, startTime 0, amplitude 25,
offsetY 0, arc 2π (and any z and visual handle), evaluation at time 0 gives
progress 1, x = 150 and shrinkFactor = -16/9, the accepted negative-taper
boundary case. -/
theorem moveParticle_boundary_case (z : ℝ) (g : Visual) :
    progress ⟨1000, 25, 0, 2 * Real.pi, 0, z, g⟩ 0 = 1 ∧
    xCoord ⟨1000, 25, 0, 2 * Real.pi, 0, z, g⟩ 0 = 150 ∧
    shrinkFactor ⟨1000, 25, 0, 2 * Real.pi, 0, z, g⟩ 0 = -16 / 9 := by
  have hp : progress ⟨1000, 25, 0, 2 * Real.pi, 0, z, g⟩ 0 = 1 := by
    norm_num [progress, elapsed, jsMod, jstrunc]
  have hx : xCoord ⟨1000, 25, 0, 2 * Real.pi, 0, z, g⟩ 0 = 150 := by
    simp only [xCoord, hp, xOfProgress]
    norm_num
  refine ⟨hp, hx, ?_⟩
  simp only [shrinkFactor, hx, shrinkOf, maxDistance]
  rw [abs_of_nonneg (by norm_num : (0 : ℝ) ≤ 150)]
  norm_num

/-- C7: for the same particle shape, evaluation at time 500 (the half
cycle) gives progress 1/2, x = 0, shrinkFactor 1 and y = -sin(π)·25 = 0
exactly. -/
theorem moveParticle_half_cycle (z : ℝ) (g : Visual) :
    progress ⟨1000, 25, 0, 2 * Real.pi, 0, z, g⟩ 500 = 1 / 2 ∧
    xCoord ⟨1000, 25, 0, 2 * Real.pi, 0, z, g⟩ 500 = 0 ∧
    shrinkFactor ⟨1000, 25, 0, 2 * Real.pi, 0, z, g⟩ 500 = 1 ∧
    yCoord ⟨1000, 25, 0, 2 * Real.pi, 0, z, g⟩ 500 = 0 := by
  have hp : progress ⟨1000, 25, 0, 2 * Real.pi, 0, z, g⟩ 500 = 1 / 2 := by
    norm_num [progress, elapsed, jsMod, jstrunc]
  have hx : xCoord ⟨1000, 25, 0, 2 * Real.pi, 0, z, g⟩ 500 = 0 := by
    simp only [xCoord, hp, xOfProgress]
    norm_num
  have hs : shrinkFactor ⟨1000, 25, 0, 2 * Real.pi, 0, z, g⟩ 500 = 1 := by
    simp only [shrinkFactor, hx, shrinkOf, maxDistance]
    norm_num
  refine ⟨hp, hx, hs, ?_⟩
  simp only [yCoord, amplitudeAt, offsetYAt, hs, hp]
  rw [show (1 / 2 : ℝ) * (2 * Real.pi) = Real.pi by ring, Real.sin_pi]
  ring

/-- C8 counterexample: `createParticle` passes the sampled duration through
unclamped, so the outcome `sNeg`, whose duration sample is -1, yields a
particle with duration -1, refuting `duration > 0` for every outcome of the
random source. -/
theorem createParticle_duration_not_always_pos :
    (createParticle 1000 sNeg).duration = -1 ∧
    ¬(0 < (createParticle 1000 sNeg).duration) := by
  constructor
  · rfl
  · norm_num [createParticle, sNeg]

/-- C8 amended: a particle returned by `createParticle` has positive
duration whenever the normal sample drawn for the duration is positive; the
code does not clamp the sample, so positivity is inherited from the sample
rather than guaranteed for every outcome. -/
theorem createParticle_duration_pos_of_sample_pos (now : ℝ) (s : Samples)
    (h : 0 < s.durationS) : 0 < (createParticle now s).duration := h

/-- C8 witness: the amended theorem applied to the concrete outcome `sPos`
whose duration sample is 20000. -/
theorem createParticle_duration_pos_witness :
    0 < sPos.durationS ∧ 0 < (createParticle 0 sPos).duration :=
  ⟨by norm_num [sPos],
    createParticle_duration_pos_of_sample_pos 0 sPos (by norm_num [sPos])⟩

/-- C9: `moveParticle` leaves `duration`, `amplitude`, `offsetY`, `arc`,
`startTime`, `z` and even the visual handle's scale unchanged; the only
write is the computed position into the visual handle. -/
theorem moveParticle_frame_condition (p : Particle) (t : ℝ) :
    (moveParticle p t).duration = p.duration ∧
    (moveParticle p t).amplitude = p.amplitude ∧
    (moveParticle p t).offsetY = p.offsetY ∧
    (moveParticle p t).arc = p.arc ∧
    (moveParticle p t).startTime = p.startTime ∧
    (moveParticle p t).z = p.z ∧
    (moveParticle p t).geometry.scale = p.geometry.scale ∧
    (moveParticle p t).geometry.pos = movePosition p t :=
  ⟨rfl, rfl, rfl, rfl, rfl, rfl, rfl, rfl⟩

/-- C10: a particle created at timestamp `now` has `startTime ≤ now`
(the uniform sample `rand(0, SPEED)` is non-negative), so for any tick time
`t ≥ now` the operand `t - startTime` is non-negative and the remainder
computed by `moveParticle` is non-negative. -/
theorem createParticle_startTime_le_now (now t : ℝ) (s : Samples)
    (hu : 0 ≤ s.uS) (hu1 : s.uS < 1) (ht : now ≤ t) :
    (createParticle now s).startTime ≤ now ∧
    0 ≤ t - (createParticle now s).startTime ∧
    0 ≤ elapsed (createParticle now s) t := by
  have h1 : (createParticle now s).startTime ≤ now := by
    simp only [createParticle, rand, SPEED]
    nlinarith
  have h2 : 0 ≤ t - (createParticle now s).startTime := by
    simp only [createParticle, rand, SPEED]
    nlinarith
  exact ⟨h1, h2, jsMod_nonneg _ _ h2⟩

/-- C10 witness: the theorem applied to creation timestamp 100, tick time
150 and the concrete outcome `sPos`. -/
theorem createParticle_startTime_witness :
    0 ≤ sPos.uS ∧ sPos.uS < 1 ∧ (100 : ℝ) ≤ 150 ∧
    ((createParticle 100 sPos).startTime ≤ 100 ∧
      0 ≤ (150 : ℝ) - (createParticle 100 sPos).startTime ∧
      0 ≤ elapsed (createParticle 100 sPos) 150) :=
  ⟨by norm_num [sPos], by norm_num [sPos], by norm_num,
    createParticle_startTime_le_now 100 150 sPos (by norm_num [sPos])
      (by norm_num [sPos]) (by norm_num)⟩

end ParticleWave
